import Mathlib

/-!
# Verification of the lightauth credential and session core

A shallow embedding, in Lean 4, of the data model and operations of the
lightauth library: email/password login, password reset, email verification,
OAuth user upsert and callback handling, the resilient SQL query executor,
and the PBKDF2 password hasher.  Database tables are embedded as lists of
records, queries as list operations, and each workflow as a pure function
from a database state (plus the inputs the runtime supplies: current time,
generated random tokens, collaborator functions) to a new database state,
a result, and — where call order matters — a log of the effects performed.

External collaborators (the WebCrypto key-derivation primitive, the random
source, the base64url codec of the oslo library, the OAuth code-exchange
client) are either parameters of the embedded functions or modelled
concretely where their behaviour is fully specified.
-/

namespace LightAuth



/-! ## Data model (database/schema.ts)

Timestamps are milliseconds since the epoch, as in the JavaScript `Date`
values the source compares. -/

/-- A row of the `users` table. -/
structure User where
  id : String
  email : String
  email_verified : Bool
  password_hash : Option String
  github_id : Option String
  google_id : Option String
  name : Option String
  avatar_url : Option String
deriving Repr, DecidableEq

/-- A row of the `sessions` table. -/
structure Session where
  id : String
  user_id : String
  expires_at : Nat
  ip_address : Option String
  user_agent : Option String
deriving Repr, DecidableEq

/-- A row of the `email_verification_tokens` table. -/
structure EmailVerificationToken where
  token : String
  user_id : String
  email : String
  expires_at : Nat
deriving Repr, DecidableEq

/-- A row of the `password_reset_tokens` table. -/
structure PasswordResetToken where
  token : String
  user_id : String
  expires_at : Nat
deriving Repr, DecidableEq

/-- The relational store: the four tables the auth workflows touch.
Row order models the unspecified row order of the underlying store;
`executeTakeFirst` becomes `List.find?`. -/
structure Db where
  users : List User
  sessions : List Session
  email_verification_tokens : List EmailVerificationToken
  password_reset_tokens : List PasswordResetToken
deriving Repr, DecidableEq

/-- Modelled from the spec: `isValidEmailVerificationToken` lives in
`database/schema.ts`, which is not among the sources; per the spec a
token is valid iff its `expires_at` is strictly in the future. -/
def isValidEmailVerificationToken (t : EmailVerificationToken) (now : Nat) : Bool :=
  decide (now < t.expires_at)

/-- Modelled from the spec: `isValidPasswordResetToken` lives in
`database/schema.ts`, which is not among the sources; per the spec a
token is valid iff its `expires_at` is strictly in the future. -/
def isValidPasswordResetToken (t : PasswordResetToken) (now : Nat) : Bool :=
  decide (now < t.expires_at)

/-! ## Auth utilities (src/auth/utils.ts) -/

/-- `AuthError` from src/auth/utils.ts: message, machine-readable code,
HTTP status code. -/
structure AuthError where
  message : String
  code : String
  statusCode : Nat
deriving Repr, DecidableEq

/-- `createAuthError` from src/auth/utils.ts. -/
def createAuthError (message code : String) (statusCode : Nat) : AuthError :=
  ⟨message, code, statusCode⟩

/-- JavaScript `String.prototype.trim`, modelled over the character list:
drop leading and trailing whitespace. -/
def trimChars (cs : List Char) : List Char :=
  ((cs.dropWhile Char.isWhitespace).reverse.dropWhile Char.isWhitespace).reverse

/-- `normalizeEmail` from src/auth/utils.ts: lowercase then trim
(`email.toLowerCase().trim()`), modelled over the character list. -/
def normalizeEmail (email : String) : String :=
  ⟨trimChars (email.data.map Char.toLower)⟩

/-- `validatePassword` from src/auth/utils.ts, with the minimum length
passed explicitly.  Returns an error message when invalid, `none` when
valid.  (The source keeps the empty-password check separate from the
length check; both produce the same message.) -/
def validatePasswordWith (minLength : Nat) (password : String) : Option String :=
  if password.length = 0 then
    some ("Password must be at least " ++ toString minLength ++ " characters long")
  else if password.length < minLength then
    some ("Password must be at least " ++ toString minLength ++ " characters long")
  else
    none

/-- `validatePassword` at its default minimum length 8, the value used by
every call site in the auth workflows. -/
def validatePassword (password : String) : Option String :=
  validatePasswordWith 8 password

/-! ## Session primitives (src/oauth/callbacks.ts) -/

/-- `createSession`: inserts a session row.  The randomly generated session
id and the current time are parameters, standing for the external random
source and clock. -/
def createSession (db : Db) (userId : String) (expiresInSeconds : Nat) (now : Nat)
    (sid : String) (ip ua : Option String) : Db × String :=
  let expiresAt := now + expiresInSeconds * 1000
  let s : Session := ⟨sid, userId, expiresAt, ip, ua⟩
  ({ db with sessions := db.sessions ++ [s] }, sid)

/-- `validateSession`: the single join query — a session row with the given
id whose `expires_at` is strictly in the future, joined to its user. -/
def validateSession (db : Db) (now : Nat) (sessionId : String) : Option User :=
  match db.sessions.find? (fun s => s.id == sessionId && decide (now < s.expires_at)) with
  | none => none
  | some s => db.users.find? (fun u => u.id == s.user_id)

/-- `deleteSession`: logout of a single session. -/
def deleteSession (db : Db) (sessionId : String) : Db :=
  { db with sessions := db.sessions.filter (fun s => s.id ≠ sessionId) }

/-- `deleteAllUserSessions`: bulk deletion of every session of one user. -/
def deleteAllUserSessions (db : Db) (userId : String) : Db :=
  { db with sessions := db.sessions.filter (fun s => s.user_id ≠ userId) }

/-! ## Login (src/auth/login.ts, `loginUser`) -/

/-- Outcome of `loginUser`: the user row and fresh session id, or an
`AuthError` (the source throws it). -/
inductive LoginResult where
  | ok (db : Db) (user : User) (sessionId : String)
  | failure (e : AuthError)
deriving Repr, DecidableEq

/-- `loginUser`.  The password hasher's `verify` is the parameter
`verifyFn` (dependency-injected in the source as well); `now` and `sid`
stand for the clock and the random session-id source. -/
def loginUser (db : Db) (email password : String)
    (verifyFn : String → String → Bool) (now : Nat) (sid : String)
    (ip ua : Option String) : LoginResult :=
  if email = "" ∨ password = "" then
    .failure (createAuthError "Email and password are required" "INVALID_CREDENTIALS" 401)
  else
    let normalizedEmail := normalizeEmail email
    match db.users.find? (fun u => u.email == normalizedEmail) with
    | none =>
      .failure (createAuthError "Invalid email or password" "INVALID_CREDENTIALS" 401)
    | some user =>
      match user.password_hash with
      | none =>
        .failure (createAuthError
          "This account uses social login. Please sign in with your social provider."
          "NO_PASSWORD_SET" 400)
      | some ph =>
        if verifyFn ph password then
          let (db1, sessionId) := createSession db user.id 2592000 now sid ip ua
          .ok db1 user sessionId
        else
          .failure (createAuthError "Invalid email or password" "INVALID_CREDENTIALS" 401)

/-- The error code of a failed login, `none` on success. -/
def loginErrorCode : LoginResult → Option String
  | .ok _ _ _ => none
  | .failure e => some e.code

/-! ## Password reset request (src/auth/login.ts, `requestPasswordReset`) -/

/-- The return value of `requestPasswordReset`: this structure has exactly
the two fields the source's success shape has — no token field exists. -/
structure ResetRequestResult where
  success : Bool
  email : String
deriving Repr, DecidableEq

/-- Effects of a `requestPasswordReset` call, in order. -/
inductive ResetRequestEffect where
  | dummyTokenGeneration
  | deleteUserResetTokens (userId : String)
  | insertResetToken (t : PasswordResetToken)
  | deliverToken (email token : String)
deriving Repr, DecidableEq

/-- Reset-token lifetime: 1 hour in milliseconds. -/
def RESET_TOKEN_EXPIRY : Nat := 60 * 60 * 1000

/-- `requestPasswordReset`.  `genToken` is the value produced by the
random source for this call; `hasCallback` records whether the optional
delivery callback was supplied. -/
def requestPasswordReset (db : Db) (now : Nat) (email : String) (genToken : String)
    (hasCallback : Bool) : Db × List ResetRequestEffect × ResetRequestResult :=
  let normalizedEmail := normalizeEmail email
  match db.users.find? (fun u => u.email == normalizedEmail) with
  | none =>
    -- user absent: simulate work, return the generic success shape
    (db, [.dummyTokenGeneration], { success := true, email := normalizedEmail })
  | some user =>
    match user.password_hash with
    | none =>
      -- OAuth-only account: same generic success shape, nothing persisted
      (db, [], { success := true, email := normalizedEmail })
    | some _ =>
      let db1 := { db with password_reset_tokens :=
        db.password_reset_tokens.filter (fun t => t.user_id ≠ user.id) }
      let newTok : PasswordResetToken :=
        { token := genToken, user_id := user.id, expires_at := now + RESET_TOKEN_EXPIRY }
      let db2 := { db1 with password_reset_tokens :=
        db1.password_reset_tokens ++ [newTok] }
      let effs := [.deleteUserResetTokens user.id, .insertResetToken newTok] ++
        (if hasCallback then [.deliverToken normalizedEmail genToken] else [])
      (db2, effs, { success := true, email := normalizedEmail })

/-! ## Password reset (src/auth/login.ts, `resetPassword`, `verifyResetToken`) -/

/-- The operations `resetPassword` performs, in execution order. -/
inductive ResetEffect where
  | hashPassword (password : String)
  | updateUserPassword (userId passwordHash : String)
  | deleteResetToken (token : String)
  | deleteUserSessions (userId : String)
deriving Repr, DecidableEq

/-- Outcome of `resetPassword`: `{ success: true }` or a thrown `AuthError`. -/
inductive ResetResult where
  | success
  | failure (e : AuthError)
deriving Repr, DecidableEq

/-- `resetPassword`.  The password hasher's `hash` is the parameter
`hashFn`.  Alongside the final database state and the outcome, the log of
performed operations is returned in execution order. -/
def resetPassword (db : Db) (now : Nat) (token newPassword : String)
    (hashFn : String → String) : Db × List ResetEffect × ResetResult :=
  if trimChars token.data = [] then
    (db, [], .failure (createAuthError "Reset token is required" "INVALID_TOKEN" 400))
  else
    match validatePassword newPassword with
    | some msg => (db, [], .failure (createAuthError msg "INVALID_PASSWORD" 400))
    | none =>
      match db.password_reset_tokens.find? (fun t => t.token == token) with
      | none =>
        (db, [], .failure (createAuthError "Invalid or expired reset token" "INVALID_TOKEN" 400))
      | some tokenRecord =>
        if !isValidPasswordResetToken tokenRecord now then
          -- expired: delete the token, then fail
          ({ db with password_reset_tokens :=
              db.password_reset_tokens.filter (fun t => t.token ≠ token) },
           [.deleteResetToken token],
           .failure (createAuthError "Reset token has expired" "TOKEN_EXPIRED" 400))
        else
          let passwordHash := hashFn newPassword
          let db1 := { db with users := db.users.map (fun (u : User) =>
            if u.id = tokenRecord.user_id then { u with password_hash := some passwordHash }
            else u) }
          let db2 := { db1 with password_reset_tokens :=
            db1.password_reset_tokens.filter (fun t => t.token ≠ token) }
          let db3 := deleteAllUserSessions db2 tokenRecord.user_id
          (db3,
           [.hashPassword newPassword,
            .updateUserPassword tokenRecord.user_id passwordHash,
            .deleteResetToken token,
            .deleteUserSessions tokenRecord.user_id],
           .success)

/-- The return value of `verifyResetToken`: validity plus the owning user
id when valid. -/
structure VerifyTokenResult where
  valid : Bool
  userId : Option String
deriving Repr, DecidableEq

/-- `verifyResetToken` (non-consuming check of a reset token). -/
def verifyResetToken (db : Db) (now : Nat) (token : String) :
    Db × VerifyTokenResult :=
  if trimChars token.data = [] then
    (db, { valid := false, userId := none })
  else
    match db.password_reset_tokens.find? (fun t => t.token == token) with
    | none => (db, { valid := false, userId := none })
    | some tokenRecord =>
      if !isValidPasswordResetToken tokenRecord now then
        -- expired: delete the expired token
        ({ db with password_reset_tokens :=
            db.password_reset_tokens.filter (fun t => t.token ≠ token) },
         { valid := false, userId := none })
      else
        (db, { valid := true, userId := some tokenRecord.user_id })

/-! ## Email verification (src/auth/verify-email.ts, `verifyEmail`) -/

/-- Outcome of `verifyEmail`: the owning user id, or a thrown `AuthError`. -/
inductive VerifyEmailResult where
  | success (userId : String)
  | failure (e : AuthError)
deriving Repr, DecidableEq

/-- `verifyEmail`. -/
def verifyEmail (db : Db) (now : Nat) (token : String) : Db × VerifyEmailResult :=
  if trimChars token.data = [] then
    (db, .failure (createAuthError "Verification token is required" "INVALID_TOKEN" 400))
  else
    match db.email_verification_tokens.find? (fun t => t.token == token) with
    | none =>
      (db, .failure (createAuthError "Invalid verification token" "INVALID_TOKEN" 400))
    | some tokenRecord =>
      if !isValidEmailVerificationToken tokenRecord now then
        -- expired: delete the token, then fail
        ({ db with email_verification_tokens :=
            db.email_verification_tokens.filter (fun t => t.token ≠ token) },
         .failure (createAuthError "Verification token has expired" "TOKEN_EXPIRED" 400))
      else
        let db1 := { db with users := db.users.map (fun (u : User) =>
          if u.id = tokenRecord.user_id then { u with email_verified := true } else u) }
        let db2 := { db1 with email_verification_tokens :=
          db1.email_verification_tokens.filter (fun t => t.token ≠ token) }
        (db2, .success tokenRecord.user_id)

/-! ## OAuth upsert (src/oauth/callbacks.ts, `upsertOAuthUser`) -/

/-- The supported OAuth providers. -/
inductive Provider where
  | github
  | google
deriving Repr, DecidableEq

/-- Normalized OAuth user profile (src/types.ts `OAuthUserProfile`);
`email_verified` is an optional boolean claim. -/
structure OAuthUserProfile where
  id : String
  email : String
  name : Option String
  avatar_url : Option String
  email_verified : Option Bool
deriving Repr, DecidableEq

/-- The provider-id column selected by `provider === 'github' ? 'github_id'
: 'google_id'`. -/
def providerIdOf (provider : Provider) (u : User) : Option String :=
  match provider with
  | .github => u.github_id
  | .google => u.google_id

/-- Setting the selected provider-id column. -/
def withProviderId (provider : Provider) (u : User) (v : String) : User :=
  match provider with
  | .github => { u with github_id := some v }
  | .google => { u with google_id := some v }

/-- JavaScript `a || b` on nullable strings: `a` unless it is null or the
empty string (both falsy). -/
def jsOrStr (a b : Option String) : Option String :=
  match a with
  | some s => if s = "" then b else some s
  | none => b

/-- JavaScript `a || b` where `a` is an optional boolean claim and `b` a
boolean: truthy iff `a` is `some true`, else `b`. -/
def jsOrBool (a : Option Bool) (b : Bool) : Bool :=
  match a with
  | some v => if v then true else b
  | none => b

/-- `upsertOAuthUser`: three-way resolution on provider id, then email,
then creation.  `newId` stands for the id the store assigns to a freshly
inserted row.  Returns the new state and the resulting user row. -/
def upsertOAuthUser (db : Db) (provider : Provider) (profile : OAuthUserProfile)
    (newId : String) : Db × User :=
  match db.users.find? (fun u => providerIdOf provider u == some profile.id) with
  | some existingUser =>
    -- update mutable profile fields; `profile.email_verified ?? existing`
    let updatedUser := { existingUser with
      email := profile.email,
      name := profile.name,
      avatar_url := profile.avatar_url,
      email_verified := profile.email_verified.getD existingUser.email_verified }
    ({ db with users := db.users.map (fun u =>
        if u.id = existingUser.id then updatedUser else u) },
     updatedUser)
  | none =>
    match db.users.find? (fun u => u.email == profile.email) with
    | some userByEmail =>
      -- link the provider onto the account found by email
      let updatedUser := { withProviderId provider userByEmail profile.id with
        name := jsOrStr profile.name userByEmail.name,
        avatar_url := jsOrStr profile.avatar_url userByEmail.avatar_url,
        email_verified := jsOrBool profile.email_verified userByEmail.email_verified }
      ({ db with users := db.users.map (fun u =>
          if u.id = userByEmail.id then updatedUser else u) },
       updatedUser)
    | none =>
      -- create a new OAuth-only user
      let createdUser := withProviderId provider
        { id := newId, email := profile.email,
          email_verified := profile.email_verified.getD false,
          password_hash := none, github_id := none, google_id := none,
          name := profile.name, avatar_url := profile.avatar_url }
        profile.id
      ({ db with users := db.users ++ [createdUser] }, createdUser)

/-! ## GitHub OAuth callback (src/oauth/github.ts, `handleGitHubCallback`) -/

/-- The collaborator invocations a callback run can perform, in order. -/
inductive OAuthEffect where
  | createProvider
  | exchangeCode (code : String)
  | fetchProfile (accessToken : String)
deriving Repr, DecidableEq

/-- `handleGitHubCallback`.  `configOk` records whether the GitHub provider
is configured; `exchange` is the external authorization-code exchange
(returning an access token) and `fetchUserProfile` the external profile
fetch.  The effect log records every collaborator call the run performed. -/
def handleGitHubCallback (configOk : Bool) (code storedState returnedState : String)
    (exchange : String → Except String String)
    (fetchUserProfile : String → Except String OAuthUserProfile) :
    Except String (OAuthUserProfile × String) × List OAuthEffect :=
  if storedState ≠ returnedState then
    (.error "Invalid OAuth state parameter", [])
  else if !configOk then
    (.error "GitHub OAuth is not configured", [.createProvider])
  else
    match exchange code with
    | .error e => (.error e, [.createProvider, .exchangeCode code])
    | .ok accessToken =>
      match fetchUserProfile accessToken with
      | .error e =>
        (.error e, [.createProvider, .exchangeCode code, .fetchProfile accessToken])
      | .ok profile =>
        (.ok (profile, accessToken),
         [.createProvider, .exchangeCode code, .fetchProfile accessToken])

/-! ## Resilient query executor (src/mech-sql-client.ts, src/errors.ts) -/

/-- The typed error taxonomy of the Mech SQL client (src/errors.ts):
`sqlError` is a semantic SQL rejection by the remote store (`MechSqlError`),
`networkError` an HTTP/transport failure carrying the optional status code
(`MechNetworkError`), `timeoutError` an aborted request
(`MechTimeoutError`), and `rateLimitError` a 429 carrying the
retry-after duration in milliseconds (`MechRateLimitError`). -/
inductive MechError where
  | sqlError (message : String)
  | networkError (statusCode : Option Nat)
  | timeoutError
  | rateLimitError (retryAfter : Nat)
deriving Repr, DecidableEq

/-- `isRetryable`: rate-limit and timeout errors, and network errors
whose status code is present and at least 500. -/
def isRetryable : MechError → Bool
  | .rateLimitError _ => true
  | .timeoutError => true
  | .networkError (some statusCode) => decide (500 ≤ statusCode)
  | _ => false

/-- The `maxRetries` default: `config.maxRetries ?? 2`. -/
def defaultMaxRetries : Nat := 2

/-- `executeWithRetry`.  The underlying `executeOnce` call is the oracle
`attempts`, giving the outcome of the k-th call; `remaining` stands for
`maxRetries - attempt`, so the source's guard `attempt < maxRetries`
becomes `remaining ≠ 0`.  Returns the final outcome together with the
list of backoff delays (`2 ^ attempt * 100` ms) slept before each retry,
in order. -/
def executeWithRetry (attempts : Nat → Except MechError α) :
    Nat → Nat → Except MechError α × List Nat
  | attempt, 0 =>
    match attempts attempt with
    | .ok v => (.ok v, [])
    | .error e => (.error e, [])
  | attempt, r + 1 =>
    match attempts attempt with
    | .ok v => (.ok v, [])
    | .error e =>
      if isRetryable e then
        let p := executeWithRetry attempts (attempt + 1) r
        (p.1, 2 ^ attempt * 100 :: p.2)
      else (.error e, [])

/-- `execute`: run `executeWithRetry` from attempt 0 with the configured
retry budget. -/
def executeQuery (attempts : Nat → Except MechError α) (maxRetries : Nat) :
    Except MechError α × List Nat :=
  executeWithRetry attempts 0 maxRetries

/-- An oracle whose first call is rejected with a semantic SQL error. -/
def c7Attempts : Nat → Except MechError Nat := fun k =>
  if k = 0 then .error (.sqlError "syntax error") else .ok 0

/-- An oracle whose first call is rate-limited with a carried
retry-after of 60000 ms, and whose second call succeeds. -/
def c8Attempts : Nat → Except MechError Nat := fun k =>
  if k = 0 then .error (.rateLimitError 60000) else .ok 0

/-! ## PBKDF2 password hasher (src/password-hasher.ts)

Bytes are naturals below 256.  The base64url codec models the oslo
library's padding-free encoder and non-strict decoder over byte and
character lists; the key-derivation primitive (WebCrypto
`crypto.subtle.deriveBits`) is external and enters as a parameter. -/

/-- The digest choices of the PBKDF2 hasher. -/
inductive HashAlg where
  | sha256
  | sha512
deriving Repr, DecidableEq

/-- The lowercase, dash-free algorithm label stored in the hash string
(`hash.toLowerCase().replace('-', '')`). -/
def hashAlgName : HashAlg → List Char
  | .sha256 => "sha256".data
  | .sha512 => "sha512".data

/-- The base64url alphabet. -/
def b64Chars : List Char :=
  "ABCDEFGHIJKLMNOPQRSTUVWXYZabcdefghijklmnopqrstuvwxyz0123456789-_".data

/-- The alphabet character of a six-bit group. -/
def charOfSixtet (n : Nat) : Char :=
  match b64Chars.get? n with
  | some c => c
  | none => 'A'

/-- The six-bit value of an alphabet character; `none` outside the
alphabet. -/
def sixtetOfChar (c : Char) : Option Nat :=
  b64Chars.findIdx? (fun d => d = c)

/-- base64url encoding without padding: three bytes become four sixtet
characters (24-bit groups, in arithmetic form), a trailing byte two and a
trailing pair three. -/
def b64urlEncode : List Nat → List Char
  | [] => []
  | [b0] => [charOfSixtet (b0 / 4), charOfSixtet (b0 % 4 * 16)]
  | [b0, b1] =>
    let n := b0 * 256 + b1
    [charOfSixtet (n / 1024), charOfSixtet (n / 16 % 64), charOfSixtet (n % 16 * 4)]
  | b0 :: b1 :: b2 :: rest =>
    let n := b0 * 65536 + b1 * 256 + b2
    charOfSixtet (n / 262144) :: charOfSixtet (n / 4096 % 64) ::
      charOfSixtet (n / 64 % 64) :: charOfSixtet (n % 64) :: b64urlEncode rest

/-- base64url decoding (non-strict: leftover low bits are dropped);
`none` on a character outside the alphabet or an impossible length. -/
def b64urlDecode : List Char → Option (List Nat)
  | [] => some []
  | [_] => none
  | [c0, c1] => do
    let s0 ← sixtetOfChar c0
    let s1 ← sixtetOfChar c1
    some [s0 * 4 + s1 / 16]
  | [c0, c1, c2] => do
    let s0 ← sixtetOfChar c0
    let s1 ← sixtetOfChar c1
    let s2 ← sixtetOfChar c2
    let n := s0 * 4096 + s1 * 64 + s2
    some [n / 1024, n / 4 % 256]
  | c0 :: c1 :: c2 :: c3 :: rest => do
    let s0 ← sixtetOfChar c0
    let s1 ← sixtetOfChar c1
    let s2 ← sixtetOfChar c2
    let s3 ← sixtetOfChar c3
    let n := s0 * 262144 + s1 * 4096 + s2 * 64 + s3
    let tail ← b64urlDecode rest
    some (n / 65536 :: n / 256 % 256 :: n % 256 :: tail)

/-- Decimal rendering of a natural number (the JS template interpolation
`${iterations}`), most-significant digit first. -/
def natDecChars (n : Nat) : List Char :=
  if n = 0 then ['0']
  else (Nat.digits 10 n).reverse.map (fun d => Char.ofNat (48 + d))

/-- Parsing the canonical decimal representation back: a model of JS
`Number(...)` restricted to the digit strings `natDecChars` produces
(non-canonical numeric syntax is rejected, which at worst makes `verify`
reject stored values this development never constructs). -/
def parseDecNat (cs : List Char) : Option Nat :=
  if cs = [] then none
  else if cs.all (fun c => decide ('0' ≤ c) && decide (c ≤ '9')) then
    some (cs.foldl (fun acc c => acc * 10 + (c.toNat - 48)) 0)
  else none

/-- JavaScript `storedHash.split('$')`. -/
def splitOnDollar : List Char → List (List Char)
  | [] => [[]]
  | c :: cs =>
    if c = '$' then [] :: splitOnDollar cs
    else
      match splitOnDollar cs with
      | [] => [[c]]
      | p :: ps => (c :: p) :: ps

/-- JavaScript `s.startsWith(pattern)` over character lists. -/
def startsWithChars : List Char → List Char → Bool
  | [], _ => true
  | _ :: _, [] => false
  | p :: ps, c :: cs => p == c && startsWithChars ps cs

/-- `timingSafeEqual`: length check, then a branch-free accumulated OR of
the byte XORs. -/
def timingSafeEqual (a b : List Nat) : Bool :=
  if a.length = b.length then
    decide (((a.zip b).foldl (fun diff p => diff ||| (p.1 ^^^ p.2)) 0) = 0)
  else false

/-- Iteration-count lower clamp. -/
def MIN_ITERATIONS : Nat := 100000

/-- Iteration-count upper clamp. -/
def MAX_ITERATIONS : Nat := 2000000

/-- Derived-key-length lower clamp. -/
def MIN_KEY_LENGTH : Nat := 16

/-- Derived-key-length upper clamp. -/
def MAX_KEY_LENGTH : Nat := 64

/-- Salt-length lower clamp. -/
def MIN_SALT_LENGTH : Nat := 8

/-- Salt-length upper clamp. -/
def MAX_SALT_LENGTH : Nat := 64

/-- The external key-derivation primitive (`pbkdf2DeriveKeyBytes`, backed
by WebCrypto): password, salt bytes, iteration count, digest, and
derived-key byte length to derived-key bytes. -/
def Kdf : Type := String → List Nat → Nat → HashAlg → Nat → List Nat

/-- The `hash` operation of `createPbkdf2PasswordHasher`, with the
configured parameters explicit and the randomly drawn salt a parameter:
derive the key, then store
`$pbkdf2$<alg>$i=<iterations>$l=<keyLength>$<saltB64>$<keyB64>`. -/
def pbkdf2Hash (kdf : Kdf) (iterations : Nat) (halg : HashAlg)
    (keyLength : Nat) (salt : List Nat) (password : String) : List Char :=
  let derivedKey := kdf password salt iterations halg keyLength
  '$' :: "pbkdf2".data ++ '$' :: hashAlgName halg ++
  '$' :: 'i' :: '=' :: natDecChars iterations ++
  '$' :: 'l' :: '=' :: natDecChars keyLength ++
  '$' :: b64urlEncode salt ++
  '$' :: b64urlEncode derivedKey

/-- The `verify` operation of `createPbkdf2PasswordHasher`: re-parse the
parameters from the stored value (never trusting the caller), clamp them,
decode salt and expected key, re-derive with the parsed parameters, and
compare in constant time; every malformed input returns `false`. -/
def pbkdf2Verify (kdf : Kdf) (storedHash : List Char) (password : String) : Bool :=
  if !startsWithChars "$pbkdf2$".data storedHash then false
  else
    match splitOnDollar storedHash with
    | [_, _, algorithm, iterationsPart, keyLengthPart, saltPart, keyPart] =>
      if !startsWithChars ['i', '='] iterationsPart then false
      else if !startsWithChars ['l', '='] keyLengthPart then false
      else
        match parseDecNat (iterationsPart.drop 2), parseDecNat (keyLengthPart.drop 2) with
        | some parsedIterations, some parsedKeyLength =>
          if parsedIterations < MIN_ITERATIONS ∨ MAX_ITERATIONS < parsedIterations then
            false
          else if parsedKeyLength < MIN_KEY_LENGTH ∨ MAX_KEY_LENGTH < parsedKeyLength then
            false
          else
            match (if algorithm = "sha256".data then some HashAlg.sha256
                   else if algorithm = "sha512".data then some HashAlg.sha512
                   else none) with
            | none => false
            | some parsedHash =>
              match b64urlDecode saltPart, b64urlDecode keyPart with
              | some salt, some expectedKey =>
                if salt.length < MIN_SALT_LENGTH ∨ MAX_SALT_LENGTH < salt.length then
                  false
                else if expectedKey.length ≠ parsedKeyLength then false
                else
                  timingSafeEqual
                    (kdf password salt parsedIterations parsedHash parsedKeyLength)
                    expectedKey
              | _, _ => false
        | _, _ => false
    | _ => false

/-- A concrete derivation function for the C9 witness: `keyLength` bytes
determined by the password length. -/
def witnessKdf : Kdf := fun p _ _ _ l =>
  (List.range l).map (fun j => (p.length * 31 + j) % 256)

/-! ## Concrete instances used by the theorems -/

/-- An OAuth-only user: null password hash, a provider id. -/
def c1OAuthUser : User :=
  { id := "u1", email := "a@b.co", email_verified := true, password_hash := none,
    github_id := some "gh-1", google_id := none, name := none, avatar_url := none }

/-- A one-user database whose only account is OAuth-only. -/
def c1Db : Db :=
  { users := [c1OAuthUser], sessions := [],
    email_verification_tokens := [], password_reset_tokens := [] }

/-- An expired reset token for the C10 counterexample database. -/
def c10Token : PasswordResetToken := ⟨"tok-exp", "u1", 5⟩

/-- A database holding only the expired reset token. -/
def c10Db : Db := ⟨[], [], [], [c10Token]⟩

/-- A user whose email is already verified, owning the provider id the
C5 profile carries. -/
def c5User : User := ⟨"u1", "old@x.co", true, none, some "gh9", none, some "Old", none⟩

/-- A one-user database for the C5 counterexample. -/
def c5Db : Db := ⟨[c5User], [], [], []⟩

/-- A profile for the same provider id whose verified claim is `false`. -/
def c5Profile : OAuthUserProfile := ⟨"gh9", "new@x.co", some "New", none, some false⟩

/-- The row `upsertOAuthUser` writes on a provider-id match: mutable
profile fields overwritten, `email_verified` set to
`profile.email_verified ?? u.email_verified`. -/
def oauthUpdatedUser (u : User) (profile : OAuthUserProfile) : User :=
  { u with
    email := profile.email
    name := profile.name
    avatar_url := profile.avatar_url
    email_verified := profile.email_verified.getD u.email_verified }

/-- Full characterization of a retry run starting at an arbitrary attempt
index: the number of retries is bounded by the budget; each slept delay is
the exponential backoff of its attempt and was triggered by a retryable
error; the final outcome is the outcome of the last call; and the run only
stops below budget when the last call succeeded or failed non-retryably. -/
theorem executeWithRetry_spec (attempts : Nat → Except MechError α) :
    ∀ remaining attempt,
    (executeWithRetry attempts attempt remaining).2.length ≤ remaining ∧
    (∀ k (hk : k < (executeWithRetry attempts attempt remaining).2.length),
      (executeWithRetry attempts attempt remaining).2.get ⟨k, hk⟩
        = 2 ^ (attempt + k) * 100 ∧
      ∃ e, attempts (attempt + k) = .error e ∧ isRetryable e = true) ∧
    (executeWithRetry attempts attempt remaining).1
      = attempts (attempt + (executeWithRetry attempts attempt remaining).2.length) ∧
    ((executeWithRetry attempts attempt remaining).2.length < remaining →
      ∀ e, attempts (attempt + (executeWithRetry attempts attempt remaining).2.length)
        = .error e → isRetryable e = false) := by
  intro remaining
  induction remaining with
  | zero =>
    intro attempt
    refine ⟨?_, ?_, ?_, ?_⟩ <;>
      simp only [executeWithRetry] <;>
      cases h : attempts attempt <;>
      simp [h]
  | succ r ih =>
    intro attempt
    cases h : attempts attempt with
    | ok v =>
      refine ⟨?_, ?_, ?_, ?_⟩ <;> simp [executeWithRetry, h]
    | error e =>
      by_cases hr : isRetryable e = true
      · have hstep : executeWithRetry attempts attempt (r + 1)
            = ((executeWithRetry attempts (attempt + 1) r).1,
               2 ^ attempt * 100 :: (executeWithRetry attempts (attempt + 1) r).2) := by
          simp [executeWithRetry, h, hr]
        obtain ⟨ih1, ih2, ih3, ih4⟩ := ih (attempt + 1)
        rw [hstep]
        refine ⟨?_, ?_, ?_, ?_⟩
        · simpa using Nat.succ_le_succ ih1
        · intro k hk
          cases k with
          | zero => exact ⟨by simp, e, by simpa using h, hr⟩
          | succ k0 =>
            have hk0 : k0 < (executeWithRetry attempts (attempt + 1) r).2.length := by
              simpa using Nat.lt_of_succ_lt_succ hk
            have := ih2 k0 hk0
            refine ⟨?_, ?_⟩
            · have hget : (2 ^ attempt * 100 ::
                  (executeWithRetry attempts (attempt + 1) r).2).get ⟨k0 + 1, by simpa using hk⟩
                  = (executeWithRetry attempts (attempt + 1) r).2.get ⟨k0, hk0⟩ := rfl
              rw [hget, this.1]
              ring_nf
            · have hidx : attempt + 1 + k0 = attempt + (k0 + 1) := by omega
              exact hidx ▸ this.2
        · have hidx : attempt + 1 + (executeWithRetry attempts (attempt + 1) r).2.length
              = attempt + ((executeWithRetry attempts (attempt + 1) r).2.length + 1) := by
            omega
          simpa [hidx] using ih3
        · intro hlt e2
          have hlt0 : (executeWithRetry attempts (attempt + 1) r).2.length < r := by
            simpa using Nat.lt_of_succ_lt_succ hlt
          have hidx : attempt + 1 + (executeWithRetry attempts (attempt + 1) r).2.length
              = attempt + ((executeWithRetry attempts (attempt + 1) r).2.length + 1) := by
            omega
          intro he2
          exact ih4 hlt0 e2 (by rw [hidx]; simpa using he2)
      · have hr0 : isRetryable e = false := by
          cases hfe : isRetryable e
          · rfl
          · exact absurd hfe hr
        have hstep : executeWithRetry attempts attempt (r + 1) = (.error e, []) := by
          simp [executeWithRetry, h, hr0]
        rw [hstep]
        refine ⟨by simp, by simp, by simpa using h.symm, ?_⟩
        intro _ e2 he2
        have : e2 = e := by
          have := he2.symm.trans (by simpa using h)
          simpa using this
        rw [this]; exact hr0

/-- `isRetryable` holds exactly for timeouts, rate limits, and 5xx-class
network errors. -/
theorem isRetryable_iff (e : MechError) :
    isRetryable e = true ↔
      (e = .timeoutError ∨ (∃ ra, e = .rateLimitError ra) ∨
       ∃ c, e = .networkError (some c) ∧ 500 ≤ c) := by
  cases e with
  | sqlError m => simp [isRetryable]
  | networkError sc => cases sc <;> simp [isRetryable]
  | timeoutError => simp [isRetryable]
  | rateLimitError ra => simp [isRetryable]

/-! ## Theorems about the retry policy (C7, C8) -/

/--
C7.  The query executor retries only on a timeout, a rate limit, or a
5xx-class network error, at most `maxRetries` times (default 2), sleeping
`2 ^ attempt * 100` ms before the attempt-th retry (the delay doubles from
the 100 ms base); the final outcome is that of the last call, and a run
that stops below the retry budget stopped because the last call succeeded
or failed non-retryably (`QueryRejected` / 4xx-class network errors are
surfaced without any retry).
-/
theorem executeQuery_retry_policy (attempts : Nat → Except MechError α)
    (maxRetries : Nat) :
    (executeQuery attempts maxRetries).2.length ≤ maxRetries ∧
    (∀ k (hk : k < (executeQuery attempts maxRetries).2.length),
      (executeQuery attempts maxRetries).2.get ⟨k, hk⟩ = 2 ^ k * 100 ∧
      ∃ e, attempts k = .error e ∧
        (e = .timeoutError ∨ (∃ ra, e = .rateLimitError ra) ∨
         ∃ c, e = .networkError (some c) ∧ 500 ≤ c)) ∧
    (executeQuery attempts maxRetries).1
      = attempts (executeQuery attempts maxRetries).2.length ∧
    ((executeQuery attempts maxRetries).2.length < maxRetries →
      ∀ e, attempts (executeQuery attempts maxRetries).2.length = .error e →
        isRetryable e = false) ∧
    defaultMaxRetries = 2 := by
  obtain ⟨h1, h2, h3, h4⟩ := executeWithRetry_spec attempts maxRetries 0
  refine ⟨h1, ?_, by simpa using h3, by simpa using h4, rfl⟩
  intro k hk
  obtain ⟨hget, e, he, hr⟩ := h2 k hk
  exact ⟨by simpa using hget, e, by simpa using he, (isRetryable_iff e).mp hr⟩

/-- Witness for `executeQuery_retry_policy`: a query-rejected error is
surfaced without retry (the run made no retry, and the stopping error is
non-retryable). -/
theorem executeQuery_retry_policy_witness :
    isRetryable (MechError.sqlError "syntax error") = false :=
  (executeQuery_retry_policy c7Attempts 2).2.2.2.1 (by decide)
    (MechError.sqlError "syntax error") (by rfl)

/--
C8, counterexample.  A rate-limit error carrying a 60000 ms retry-after
duration triggers a retry, but the executor sleeps its own exponential
backoff delay of 100 ms — not the carried 60000 ms.
-/
theorem executeQuery_ignores_carried_retry_after :
    c8Attempts 0 = .error (.rateLimitError 60000) ∧
    (executeQuery c8Attempts defaultMaxRetries).2 = [100] ∧
    (100 : Nat) ≠ 60000 := by
  exact ⟨rfl, by decide, by decide⟩

/--
C8, amended.  A rate-limit error is treated as retryable, but whenever it
triggers the k-th retry the executor sleeps its own exponential backoff
delay `2 ^ k * 100` ms regardless of the carried retry-after duration:
the carried delay is never used for the wait.
-/
theorem executeQuery_rate_limit_backoff (attempts : Nat → Except MechError α)
    (maxRetries k ra : Nat)
    (hk : k < (executeQuery attempts maxRetries).2.length)
    (hrl : attempts k = .error (.rateLimitError ra)) :
    isRetryable (MechError.rateLimitError ra) = true ∧
    (executeQuery attempts maxRetries).2.get ⟨k, hk⟩ = 2 ^ k * 100 := by
  obtain ⟨-, h2, -, -⟩ := executeWithRetry_spec attempts maxRetries 0
  refine ⟨rfl, ?_⟩
  have := (h2 k (by simpa [executeQuery] using hk)).1
  simpa [executeQuery] using this

/-- Witness for `executeQuery_rate_limit_backoff` on the concrete
rate-limited oracle. -/
theorem executeQuery_rate_limit_backoff_witness :
    isRetryable (MechError.rateLimitError 60000) = true ∧
    (executeQuery c8Attempts 2).2.get ⟨0, by decide⟩ = 100 := by
  have h := executeQuery_rate_limit_backoff c8Attempts 2 0 60000 (by decide) (by rfl)
  exact ⟨h.1, by simpa using h.2⟩

/-! ### Codec and comparison lemmas -/

/-- Encoding a six-bit value and reading it back is the identity. -/
theorem sixtetOfChar_charOfSixtet : ∀ s, s < 64 → sixtetOfChar (charOfSixtet s) = some s := by
  decide

/-- Every alphabet character differs from the separator `$`. -/
theorem charOfSixtet_ne_dollar (n : Nat) : charOfSixtet n ≠ '$' := by
  unfold charOfSixtet
  cases hn : b64Chars.get? n with
  | none => decide
  | some c =>
    have hm : c ∈ b64Chars := List.get?_mem hn
    show c ≠ '$'
    intro heq
    rw [heq] at hm
    exact absurd hm (by decide)

/-- A natural OR is zero exactly when both operands are. -/
theorem lor_eq_zero_iff (a b : Nat) : a ||| b = 0 ↔ a = 0 ∧ b = 0 := by
  constructor
  · intro h
    constructor
    · apply Nat.eq_of_testBit_eq
      intro k
      have := congrArg (fun x => Nat.testBit x k) h
      simp [Nat.testBit_lor] at this
      simp [this.1]
    · apply Nat.eq_of_testBit_eq
      intro k
      have := congrArg (fun x => Nat.testBit x k) h
      simp [Nat.testBit_lor] at this
      simp [this.2]
  · rintro ⟨rfl, rfl⟩; rfl

/-- The accumulated OR of XORs is zero exactly when the accumulator is
zero and all pairs agree. -/
theorem foldl_or_xor_eq_zero (l : List (Nat × Nat)) (acc : Nat) :
    (l.foldl (fun diff p => diff ||| (p.1 ^^^ p.2)) acc = 0) ↔
      (acc = 0 ∧ ∀ p ∈ l, p.1 = p.2) := by
  induction l generalizing acc with
  | nil => simp
  | cons q t ih =>
    simp only [List.foldl_cons, ih, List.mem_cons]
    rw [lor_eq_zero_iff, Nat.xor_eq_zero]
    constructor
    · rintro ⟨⟨h1, h2⟩, h3⟩
      exact ⟨h1, fun p hp => hp.elim (fun he => he ▸ h2) (h3 p)⟩
    · rintro ⟨h1, h2⟩
      exact ⟨⟨h1, h2 q (Or.inl rfl)⟩, fun p hp => h2 p (Or.inr hp)⟩

/-- Lists agreeing pointwise on their zip, with equal lengths, are equal. -/
theorem zip_forall_eq : ∀ (a b : List Nat), a.length = b.length →
    (∀ p ∈ a.zip b, p.1 = p.2) → a = b
  | [], [], _, _ => rfl
  | x :: xs, y :: ys, hlen, h => by
    have hxy : x = y := h (x, y) (by simp)
    have : xs = ys := zip_forall_eq xs ys (by simpa using hlen)
      (fun p hp => h p (by simp [hp]))
    rw [hxy, this]

/-- The zip of a list with itself consists of equal pairs. -/
theorem mem_zip_same (a : List Nat) : ∀ p ∈ a.zip a, p.1 = p.2 := by
  induction a with
  | nil => simp
  | cons x xs ih =>
    intro p hp
    rcases (by simpa using hp : p = (x, x) ∨ p ∈ xs.zip xs) with h | h
    · rw [h]
    · exact ih p h

/-- The constant-time comparison agrees with list equality. -/
theorem timingSafeEqual_eq_true_iff (a b : List Nat) :
    timingSafeEqual a b = true ↔ a = b := by
  unfold timingSafeEqual
  by_cases hlen : a.length = b.length
  · rw [if_pos hlen]
    simp only [decide_eq_true_eq, foldl_or_xor_eq_zero]
    constructor
    · rintro ⟨-, h⟩
      exact zip_forall_eq a b hlen h
    · rintro rfl
      exact ⟨trivial, mem_zip_same a⟩
  · rw [if_neg hlen]
    constructor
    · intro h
      exact absurd h (by simp)
    · intro heq
      exact absurd (heq ▸ rfl) hlen

/-- Splitting never yields the empty part list. -/
theorem splitOnDollar_ne_nil (cs : List Char) : splitOnDollar cs ≠ [] := by
  induction cs with
  | nil => simp [splitOnDollar]
  | cons c cs ih =>
    by_cases hc : c = '$'
    · simp [splitOnDollar, hc]
    · simp only [splitOnDollar, if_neg hc]
      cases h : splitOnDollar cs with
      | nil => simp
      | cons p ps => simp

/-- A separator-free list splits into itself. -/
theorem splitOnDollar_no_dollar (xs : List Char) (hx : '$' ∉ xs) :
    splitOnDollar xs = [xs] := by
  induction xs with
  | nil => rfl
  | cons c cs ih =>
    have hc : ¬ c = '$' := fun h => hx (h ▸ List.mem_cons_self c cs)
    have hcs : '$' ∉ cs := fun h => hx (List.mem_cons_of_mem _ h)
    simp only [splitOnDollar, if_neg hc, ih hcs]

/-- Splitting peels off a separator-free head segment. -/
theorem splitOnDollar_append (xs rest : List Char) (hx : '$' ∉ xs) :
    splitOnDollar (xs ++ '$' :: rest) = xs :: splitOnDollar rest := by
  induction xs with
  | nil => simp [splitOnDollar]
  | cons c cs ih =>
    have hc : ¬ c = '$' := fun h => hx (h ▸ List.mem_cons_self c cs)
    have hcs : '$' ∉ cs := fun h => hx (List.mem_cons_of_mem _ h)
    simp only [List.cons_append, splitOnDollar, if_neg hc, List.append_eq, ih hcs]

/-- A list starts with any of its own prefixes. -/
theorem startsWithChars_append (xs ys : List Char) :
    startsWithChars xs (xs ++ ys) = true := by
  induction xs with
  | nil => rfl
  | cons c cs ih => simp [startsWithChars, ih]

/-! ### Decimal rendering lemmas -/

/-- Character facts about the ten decimal digit characters. -/
theorem digitChar_facts : ∀ d, d < 10 →
    (('0' ≤ Char.ofNat (48 + d) ∧ Char.ofNat (48 + d) ≤ '9') ∧
     (Char.ofNat (48 + d)).toNat = 48 + d ∧ Char.ofNat (48 + d) ≠ '$') := by decide

/-- Decimal renderings never contain the separator. -/
theorem natDecChars_not_dollar (n : Nat) : '$' ∉ natDecChars n := by
  unfold natDecChars
  by_cases h : n = 0
  · rw [if_pos h]; decide
  · rw [if_neg h]
    intro hmem
    rcases List.mem_map.mp hmem with ⟨d, hd, hchar⟩
    have hd10 : d < 10 := Nat.digits_lt_base (by norm_num) (List.mem_reverse.mp hd)
    exact (digitChar_facts d hd10).2.2 hchar

/-- Folding the decimal parser over rendered digits recovers the
positional value. -/
theorem foldl_digits (l : List Nat) (hl : ∀ d ∈ l, d < 10) (acc : Nat) :
    ((l.reverse.map (fun d => Char.ofNat (48 + d))).foldl
      (fun acc c => acc * 10 + (c.toNat - 48)) acc)
      = acc * 10 ^ l.length + Nat.ofDigits 10 l := by
  induction l generalizing acc with
  | nil => simp
  | cons d t ih =>
    have hd : d < 10 := hl d (List.mem_cons_self d t)
    have ht : ∀ x ∈ t, x < 10 := fun x hx => hl x (List.mem_cons_of_mem _ hx)
    rw [List.reverse_cons, List.map_append, List.foldl_append, ih ht]
    simp only [List.map_cons, List.map_nil, List.foldl_cons, List.foldl_nil]
    rw [(digitChar_facts d hd).2.1]
    have h48 : 48 + d - 48 = d := by omega
    rw [h48]
    simp only [Nat.ofDigits_cons, List.length_cons]
    ring

/-- Parsing a canonical decimal rendering recovers the number. -/
theorem parseDecNat_natDecChars (n : Nat) : parseDecNat (natDecChars n) = some n := by
  by_cases h : n = 0
  · subst h; decide
  · unfold natDecChars parseDecNat
    rw [if_neg h]
    have hne : ¬ ((Nat.digits 10 n).reverse.map (fun d => Char.ofNat (48 + d)) = []) := by
      simp [Nat.digits_ne_nil_iff_ne_zero.mpr h]
    rw [if_neg hne]
    have hall : ((Nat.digits 10 n).reverse.map (fun d => Char.ofNat (48 + d))).all
        (fun c => decide ('0' ≤ c) && decide (c ≤ '9')) = true := by
      rw [List.all_eq_true]
      intro c hc
      rcases List.mem_map.mp hc with ⟨d, hd, rfl⟩
      have hd10 : d < 10 := Nat.digits_lt_base (by norm_num) (List.mem_reverse.mp hd)
      have hfacts := (digitChar_facts d hd10).1
      simp [hfacts.1, hfacts.2]
    rw [if_pos hall]
    rw [foldl_digits _ (fun d hd => Nat.digits_lt_base (by norm_num) hd) 0]
    simp [Nat.ofDigits_digits]

/-! ### base64url lemmas -/

/-- The separator never equals an alphabet character. -/
theorem dollar_ne_charOfSixtet (n : Nat) : ¬ ('$' = charOfSixtet n) :=
  fun h => charOfSixtet_ne_dollar n h.symm

/-- Encoded byte strings never contain the separator. -/
theorem b64urlEncode_not_dollar : ∀ (bs : List Nat), '$' ∉ b64urlEncode bs
  | [] => by simp [b64urlEncode]
  | [b0] => by simp [b64urlEncode, dollar_ne_charOfSixtet]
  | [b0, b1] => by simp [b64urlEncode, dollar_ne_charOfSixtet]
  | b0 :: b1 :: b2 :: rest => by
    simp only [b64urlEncode, List.mem_cons, not_or]
    refine ⟨dollar_ne_charOfSixtet _, dollar_ne_charOfSixtet _,
      dollar_ne_charOfSixtet _, dollar_ne_charOfSixtet _, ?_⟩
    exact b64urlEncode_not_dollar rest

/-- Decoding an encoded byte string recovers the bytes. -/
theorem b64urlDecode_b64urlEncode : ∀ (bs : List Nat), (∀ b ∈ bs, b < 256) →
    b64urlDecode (b64urlEncode bs) = some bs
  | [], _ => rfl
  | [b0], hb => by
    have h0 : b0 < 256 := hb b0 (by simp)
    have s0 : b0 / 4 < 64 := by omega
    have s1 : b0 % 4 * 16 < 64 := by omega
    simp only [b64urlEncode, b64urlDecode,
      sixtetOfChar_charOfSixtet _ s0, sixtetOfChar_charOfSixtet _ s1]
    simp
    all_goals omega
  | [b0, b1], hb => by
    have h0 : b0 < 256 := hb b0 (by simp)
    have h1 : b1 < 256 := hb b1 (by simp)
    have s0 : (b0 * 256 + b1) / 1024 < 64 := by omega
    have s1 : (b0 * 256 + b1) / 16 % 64 < 64 := by omega
    have s2 : (b0 * 256 + b1) % 16 * 4 < 64 := by omega
    simp only [b64urlEncode, b64urlDecode,
      sixtetOfChar_charOfSixtet _ s0, sixtetOfChar_charOfSixtet _ s1,
      sixtetOfChar_charOfSixtet _ s2]
    simp
    all_goals omega
  | b0 :: b1 :: b2 :: b3 :: bs, hb => by
    have h0 : b0 < 256 := hb b0 (by simp)
    have h1 : b1 < 256 := hb b1 (by simp)
    have h2 : b2 < 256 := hb b2 (by simp)
    have hrest : ∀ b ∈ b3 :: bs, b < 256 := fun b hbm => hb b (by simp [hbm])
    have s0 : (b0 * 65536 + b1 * 256 + b2) / 262144 < 64 := by omega
    have s1 : (b0 * 65536 + b1 * 256 + b2) / 4096 % 64 < 64 := by omega
    have s2 : (b0 * 65536 + b1 * 256 + b2) / 64 % 64 < 64 := by omega
    have s3 : (b0 * 65536 + b1 * 256 + b2) % 64 < 64 := by omega
    have htail := b64urlDecode_b64urlEncode (b3 :: bs) hrest
    simp only [b64urlEncode, b64urlDecode,
      sixtetOfChar_charOfSixtet _ s0, sixtetOfChar_charOfSixtet _ s1,
      sixtetOfChar_charOfSixtet _ s2, sixtetOfChar_charOfSixtet _ s3]
    simp [htail]
    all_goals omega
  | [b0, b1, b2], hb => by
    have h0 : b0 < 256 := hb b0 (by simp)
    have h1 : b1 < 256 := hb b1 (by simp)
    have h2 : b2 < 256 := hb b2 (by simp)
    have s0 : (b0 * 65536 + b1 * 256 + b2) / 262144 < 64 := by omega
    have s1 : (b0 * 65536 + b1 * 256 + b2) / 4096 % 64 < 64 := by omega
    have s2 : (b0 * 65536 + b1 * 256 + b2) / 64 % 64 < 64 := by omega
    have s3 : (b0 * 65536 + b1 * 256 + b2) % 64 < 64 := by omega
    simp only [b64urlEncode, b64urlDecode,
      sixtetOfChar_charOfSixtet _ s0, sixtetOfChar_charOfSixtet _ s1,
      sixtetOfChar_charOfSixtet _ s2, sixtetOfChar_charOfSixtet _ s3]
    simp
    all_goals omega

/-! ### Verifying a freshly produced hash -/

/-- Verification of a value produced by `pbkdf2Hash` reduces to the
constant-time comparison of the re-derived key against the stored one:
the self-describing format round-trips through the parser, and the
default-range parameters pass every clamp. -/
theorem pbkdf2Verify_pbkdf2Hash (kdf : Kdf)
    (hlen : ∀ p s i h l, (kdf p s i h l).length = l)
    (hbytes : ∀ p s i h l, ∀ b ∈ kdf p s i h l, b < 256)
    (iterations keyLength : Nat) (halg : HashAlg) (salt : List Nat)
    (hiter1 : MIN_ITERATIONS ≤ iterations) (hiter2 : iterations ≤ MAX_ITERATIONS)
    (hkey1 : MIN_KEY_LENGTH ≤ keyLength) (hkey2 : keyLength ≤ MAX_KEY_LENGTH)
    (hsalt1 : MIN_SALT_LENGTH ≤ salt.length) (hsalt2 : salt.length ≤ MAX_SALT_LENGTH)
    (hsaltb : ∀ b ∈ salt, b < 256)
    (P R : String) :
    pbkdf2Verify kdf (pbkdf2Hash kdf iterations halg keyLength salt P) R
      = timingSafeEqual (kdf R salt iterations halg keyLength)
          (kdf P salt iterations halg keyLength) := by
  have hP6 : '$' ∉ "pbkdf2".data := by decide
  have hA : '$' ∉ hashAlgName halg := by cases halg <;> decide
  have hI : '$' ∉ 'i' :: '=' :: natDecChars iterations := by
    simp only [List.mem_cons, not_or]
    exact ⟨by decide, by decide, natDecChars_not_dollar _⟩
  have hL : '$' ∉ 'l' :: '=' :: natDecChars keyLength := by
    simp only [List.mem_cons, not_or]
    exact ⟨by decide, by decide, natDecChars_not_dollar _⟩
  have hS : '$' ∉ b64urlEncode salt := b64urlEncode_not_dollar salt
  have hK : '$' ∉ b64urlEncode (kdf P salt iterations halg keyLength) :=
    b64urlEncode_not_dollar _
  have hform : pbkdf2Hash kdf iterations halg keyLength salt P =
      '$' :: ("pbkdf2".data ++ '$' :: (hashAlgName halg ++
        '$' :: (('i' :: '=' :: natDecChars iterations) ++
        '$' :: (('l' :: '=' :: natDecChars keyLength) ++
        '$' :: (b64urlEncode salt ++
        '$' :: b64urlEncode (kdf P salt iterations halg keyLength)))))) := by
    unfold pbkdf2Hash
    simp
  have hform2 : pbkdf2Hash kdf iterations halg keyLength salt P =
      "$pbkdf2$".data ++ (hashAlgName halg ++
        '$' :: (('i' :: '=' :: natDecChars iterations) ++
        '$' :: (('l' :: '=' :: natDecChars keyLength) ++
        '$' :: (b64urlEncode salt ++
        '$' :: b64urlEncode (kdf P salt iterations halg keyLength))))) := by
    unfold pbkdf2Hash
    simp
  have hstarts : startsWithChars "$pbkdf2$".data
      (pbkdf2Hash kdf iterations halg keyLength salt P) = true := by
    rw [hform2, startsWithChars_append]
  have hsplit : splitOnDollar (pbkdf2Hash kdf iterations halg keyLength salt P) =
      [[], "pbkdf2".data, hashAlgName halg,
       'i' :: '=' :: natDecChars iterations,
       'l' :: '=' :: natDecChars keyLength,
       b64urlEncode salt,
       b64urlEncode (kdf P salt iterations halg keyLength)] := by
    rw [hform]
    have hdollar : splitOnDollar ('$' :: ("pbkdf2".data ++ '$' :: (hashAlgName halg ++
        '$' :: (('i' :: '=' :: natDecChars iterations) ++
        '$' :: (('l' :: '=' :: natDecChars keyLength) ++
        '$' :: (b64urlEncode salt ++
        '$' :: b64urlEncode (kdf P salt iterations halg keyLength)))))))
        = [] :: splitOnDollar ("pbkdf2".data ++ '$' :: (hashAlgName halg ++
        '$' :: (('i' :: '=' :: natDecChars iterations) ++
        '$' :: (('l' :: '=' :: natDecChars keyLength) ++
        '$' :: (b64urlEncode salt ++
        '$' :: b64urlEncode (kdf P salt iterations halg keyLength)))))) := by
      simp [splitOnDollar]
    rw [hdollar, splitOnDollar_append _ _ hP6, splitOnDollar_append _ _ hA,
      splitOnDollar_append _ _ hI, splitOnDollar_append _ _ hL,
      splitOnDollar_append _ _ hS, splitOnDollar_no_dollar _ hK]
  have halgParse : (if hashAlgName halg = "sha256".data then some HashAlg.sha256
      else if hashAlgName halg = "sha512".data then some HashAlg.sha512
      else none) = some halg := by
    cases halg <;> decide
  unfold pbkdf2Verify
  rw [hstarts, hsplit]
  simp only [Bool.not_true, Bool.false_eq_true, if_false]
  have hswI : startsWithChars ['i', '='] ('i' :: '=' :: natDecChars iterations) = true := by
    simp [startsWithChars]
  have hswL : startsWithChars ['l', '='] ('l' :: '=' :: natDecChars keyLength) = true := by
    simp [startsWithChars]
  rw [hswI, hswL]
  simp only [Bool.not_true, Bool.false_eq_true, if_false]
  have hdropI : ('i' :: '=' :: natDecChars iterations).drop 2 = natDecChars iterations := rfl
  have hdropL : ('l' :: '=' :: natDecChars keyLength).drop 2 = natDecChars keyLength := rfl
  rw [hdropI, hdropL, parseDecNat_natDecChars, parseDecNat_natDecChars]
  have hc1 : ¬ (iterations < MIN_ITERATIONS ∨ MAX_ITERATIONS < iterations) := by omega
  have hc2 : ¬ (keyLength < MIN_KEY_LENGTH ∨ MAX_KEY_LENGTH < keyLength) := by omega
  have hc3 : ¬ (salt.length < MIN_SALT_LENGTH ∨ MAX_SALT_LENGTH < salt.length) := by omega
  have hc4 : ¬ ((kdf P salt iterations halg keyLength).length ≠ keyLength) :=
    fun hne => hne (hlen P salt iterations halg keyLength)
  dsimp only
  rw [if_neg hc1, if_neg hc2, halgParse]
  dsimp only
  rw [b64urlDecode_b64urlEncode salt hsaltb,
    b64urlDecode_b64urlEncode _ (hbytes P salt iterations halg keyLength)]
  dsimp only
  rw [if_neg hc3, if_neg hc4]

/-! ## Theorems about the password hasher (C9) -/

/--
C9.  For the PBKDF2 hasher with any external key-derivation primitive
`kdf` (producing `keyLength` bytes) and in-range parameters:
`verify(hash(P), P)` returns `true` for every password `P`; and for
passwords `P`, `Q` whose derived keys at the stored salt differ (the
collision-freedom the spec presumes of the primitive — it implies
`P ≠ Q`), `verify(hash(P), Q)` returns `false`.
-/
theorem pbkdf2_verify_correct (kdf : Kdf)
    (hlen : ∀ p s i h l, (kdf p s i h l).length = l)
    (hbytes : ∀ p s i h l, ∀ b ∈ kdf p s i h l, b < 256)
    (iterations keyLength : Nat) (halg : HashAlg) (salt : List Nat)
    (hiter1 : MIN_ITERATIONS ≤ iterations) (hiter2 : iterations ≤ MAX_ITERATIONS)
    (hkey1 : MIN_KEY_LENGTH ≤ keyLength) (hkey2 : keyLength ≤ MAX_KEY_LENGTH)
    (hsalt1 : MIN_SALT_LENGTH ≤ salt.length) (hsalt2 : salt.length ≤ MAX_SALT_LENGTH)
    (hsaltb : ∀ b ∈ salt, b < 256)
    (P Q : String)
    (hdiff : kdf Q salt iterations halg keyLength ≠ kdf P salt iterations halg keyLength) :
    P ≠ Q ∧
    pbkdf2Verify kdf (pbkdf2Hash kdf iterations halg keyLength salt P) P = true ∧
    pbkdf2Verify kdf (pbkdf2Hash kdf iterations halg keyLength salt P) Q = false := by
  refine ⟨?_, ?_, ?_⟩
  · intro hPQ
    exact hdiff (hPQ ▸ rfl)
  · rw [pbkdf2Verify_pbkdf2Hash kdf hlen hbytes iterations keyLength halg salt
      hiter1 hiter2 hkey1 hkey2 hsalt1 hsalt2 hsaltb P P]
    exact (timingSafeEqual_eq_true_iff _ _).mpr rfl
  · rw [pbkdf2Verify_pbkdf2Hash kdf hlen hbytes iterations keyLength halg salt
      hiter1 hiter2 hkey1 hkey2 hsalt1 hsalt2 hsaltb P Q]
    exact Bool.eq_false_iff.mpr
      (fun h => hdiff ((timingSafeEqual_eq_true_iff _ _).mp h))

/-- Witness for `pbkdf2_verify_correct` at a concrete derivation
function, salt, and password pair. -/
theorem pbkdf2_verify_correct_witness :
    pbkdf2Verify witnessKdf
      (pbkdf2Hash witnessKdf 100000 .sha256 16 [0, 1, 2, 3, 4, 5, 6, 7] "password1")
      "password1" = true ∧
    pbkdf2Verify witnessKdf
      (pbkdf2Hash witnessKdf 100000 .sha256 16 [0, 1, 2, 3, 4, 5, 6, 7] "password1")
      "pw" = false := by
  have h := pbkdf2_verify_correct witnessKdf
    (by intro p s i hh l; simp [witnessKdf])
    (by
      intro p s i hh l b hb
      rcases List.mem_map.mp hb with ⟨j, hj, rfl⟩
      exact Nat.mod_lt _ (by norm_num))
    100000 16 HashAlg.sha256 [0, 1, 2, 3, 4, 5, 6, 7]
    (by decide) (by decide) (by decide) (by decide) (by decide) (by decide)
    (by decide) "password1" "pw" (by decide)
  exact ⟨h.2.1, h.2.2⟩

/-! ## Theorems about login error codes (C1) -/

/--
C1, counterexample.  The three login failure cases do not all return the
`INVALID_CREDENTIALS` code: on the concrete database containing only an
OAuth-only user (null `password_hash`), logging in with that user's email
fails with the distinct code `NO_PASSWORD_SET`, while a nonexistent email
fails with `INVALID_CREDENTIALS`.
-/
theorem loginUser_oauth_only_code_differs :
    loginErrorCode (loginUser c1Db "a@b.co" "pw12345678" (fun _ _ => false) 0 "sid" none none)
      = some "NO_PASSWORD_SET" ∧
    loginErrorCode (loginUser c1Db "ghost@b.co" "pw12345678" (fun _ _ => false) 0 "sid" none none)
      = some "INVALID_CREDENTIALS" ∧
    ("NO_PASSWORD_SET" : String) ≠ "INVALID_CREDENTIALS" := by
  refine ⟨by decide, by decide, by decide⟩

/--
C1, amended.  `loginUser` returns the same generic `INVALID_CREDENTIALS`
failure when no user exists with the normalized email and when password
verification fails; but when the user exists with a null `password_hash`
(OAuth-only account) it returns the distinct code `NO_PASSWORD_SET`
(HTTP 400 rather than 401).
-/
theorem loginUser_failure_codes (db : Db) (email password : String)
    (verifyFn : String → String → Bool) (now : Nat) (sid : String) (ip ua : Option String)
    (hemail : email ≠ "") (hpw : password ≠ "") :
    (db.users.find? (fun u => u.email == normalizeEmail email) = none →
      loginErrorCode (loginUser db email password verifyFn now sid ip ua)
        = some "INVALID_CREDENTIALS") ∧
    (∀ u, db.users.find? (fun u => u.email == normalizeEmail email) = some u →
      u.password_hash = none →
      loginErrorCode (loginUser db email password verifyFn now sid ip ua)
        = some "NO_PASSWORD_SET") ∧
    (∀ u ph, db.users.find? (fun u => u.email == normalizeEmail email) = some u →
      u.password_hash = some ph → verifyFn ph password = false →
      loginErrorCode (loginUser db email password verifyFn now sid ip ua)
        = some "INVALID_CREDENTIALS") := by
  unfold loginUser
  rw [if_neg (by simp [hemail, hpw])]
  dsimp only
  refine ⟨?_, ?_, ?_⟩
  · intro hfind; simp only [hfind, loginErrorCode, createAuthError]
  · intro u hfind hhash; simp only [hfind, hhash, loginErrorCode, createAuthError]
  · intro u ph hfind hhash hverify
    simp only [hfind, hhash, hverify, Bool.false_eq_true, if_false, loginErrorCode,
      createAuthError]

/-- Witness for `loginUser_failure_codes` at a concrete empty database. -/
theorem loginUser_failure_codes_witness :
    loginErrorCode (loginUser ⟨[], [], [], []⟩ "x@y.z" "password1"
      (fun _ _ => false) 0 "sid" none none) = some "INVALID_CREDENTIALS" :=
  (loginUser_failure_codes ⟨[], [], [], []⟩ "x@y.z" "password1"
    (fun _ _ => false) 0 "sid" none none (by decide) (by decide)).1 rfl

/-! ## Theorems about reset-request enumeration safety (C4) -/

/--
C4.  The value returned by `requestPasswordReset` is
`{ success := true, email := normalizeEmail email }` for every database
state, generated token, and callback configuration: the ghost-email run
and the existing-password-user run therefore return results of the
identical success shape, and — because the result is structurally
independent of both the database and the generated token — the reset
token never appears in the return value (whose only fields are the
constant `true` and the normalization of the caller-supplied email).
-/
theorem requestPasswordReset_result_uniform (db : Db) (now : Nat) (email genToken : String)
    (hasCallback : Bool) :
    (requestPasswordReset db now email genToken hasCallback).2.2
      = { success := true, email := normalizeEmail email } := by
  unfold requestPasswordReset
  dsimp only
  cases List.find? (fun u => u.email == normalizeEmail email) db.users with
  | none => rfl
  | some user =>
    dsimp only
    cases user.password_hash with
    | none => rfl
    | some ph => cases hasCallback <;> rfl

/-! ## Theorems about password reset (C2) -/

/--
C2.  For a valid, unexpired reset token (and a new password passing
validation), `resetPassword` performs, in this order: hash the new
password, update the owning user's `password_hash`, delete the token,
delete all sessions of that user; afterwards `validateSession` on any
session id that belonged to that user before the call returns no user
(assuming the primary-key uniqueness of session ids).
-/
theorem resetPassword_invalidates_sessions (db : Db) (now : Nat)
    (token newPassword : String) (hashFn : String → String)
    (tr : PasswordResetToken) (s : Session)
    (htr : trimChars token.data ≠ [])
    (hval : validatePassword newPassword = none)
    (hfind : db.password_reset_tokens.find? (fun t => t.token == token) = some tr)
    (hvalid : isValidPasswordResetToken tr now = true)
    (hnodup : (db.sessions.map Session.id).Nodup)
    (hs : s ∈ db.sessions) (huser : s.user_id = tr.user_id) :
    (resetPassword db now token newPassword hashFn).2.2 = .success ∧
    (resetPassword db now token newPassword hashFn).2.1 =
      [.hashPassword newPassword,
       .updateUserPassword tr.user_id (hashFn newPassword),
       .deleteResetToken token,
       .deleteUserSessions tr.user_id] ∧
    ∀ now2, validateSession (resetPassword db now token newPassword hashFn).1 now2 s.id
      = none := by
  have hcond : ¬ trimChars token.data = [] := htr
  unfold resetPassword
  rw [if_neg hcond, hval]
  dsimp only
  rw [hfind]
  dsimp only
  rw [hvalid]
  simp only [Bool.not_true, Bool.false_eq_true, if_false]
  refine ⟨by trivial, by trivial, ?_⟩
  intro now2
  unfold deleteAllUserSessions validateSession
  dsimp only
  have hnone : (db.sessions.filter (fun t => t.user_id ≠ tr.user_id)).find?
      (fun t => t.id == s.id && decide (now2 < t.expires_at)) = none := by
    rw [List.find?_eq_none]
    intro x hx hpx
    have hmem := (List.mem_filter.mp hx).1
    have hne : x.user_id ≠ tr.user_id := by
      have := (List.mem_filter.mp hx).2
      simpa using this
    have hid : x.id = s.id := by
      have := (Bool.and_eq_true _ _).mp hpx
      exact eq_of_beq this.1
    have hxs : x = s :=
      List.inj_on_of_nodup_map hnodup hmem hs hid
    exact hne (hxs ▸ (huser ▸ rfl) : x.user_id = tr.user_id)
  rw [hnone]

/-- Witness for `resetPassword_invalidates_sessions` on a one-user,
one-session, one-token database. -/
theorem resetPassword_invalidates_sessions_witness :
    validateSession
      (resetPassword
        ⟨[⟨"u1", "a@b.co", true, some "oldhash", none, none, none, none⟩],
         [⟨"sess1", "u1", 5000, none, none⟩], [], [⟨"tok123", "u1", 1000⟩]⟩
        0 "tok123" "newpassword1" (fun p => p ++ "#h")).1
      9999 "sess1" = none :=
  (resetPassword_invalidates_sessions
    ⟨[⟨"u1", "a@b.co", true, some "oldhash", none, none, none, none⟩],
     [⟨"sess1", "u1", 5000, none, none⟩], [], [⟨"tok123", "u1", 1000⟩]⟩
    0 "tok123" "newpassword1" (fun p => p ++ "#h")
    ⟨"tok123", "u1", 1000⟩ ⟨"sess1", "u1", 5000, none, none⟩
    (by decide) (by decide) (by decide) (by decide) (by decide)
    (by decide) (by decide)).2.2 9999

/-! ## Theorems about email verification (C3) -/

/--
C3.  A successful `verifyEmail` call (token present and unexpired) sets
the owning user's `email_verified` flag to `true` and deletes the token;
a second `verifyEmail` call with the same token on the resulting state
fails with `INVALID_TOKEN`: the token is consumed at most once.
-/
theorem verifyEmail_consumes_token (db : Db) (now : Nat) (token : String)
    (tr : EmailVerificationToken)
    (htr : trimChars token.data ≠ [])
    (hfind : db.email_verification_tokens.find? (fun t => t.token == token) = some tr)
    (hvalid : isValidEmailVerificationToken tr now = true) :
    (verifyEmail db now token).2 = .success tr.user_id ∧
    (∀ u ∈ (verifyEmail db now token).1.users,
      u.id = tr.user_id → u.email_verified = true) ∧
    (∀ t2 ∈ (verifyEmail db now token).1.email_verification_tokens, t2.token ≠ token) ∧
    (∀ now2, (verifyEmail (verifyEmail db now token).1 now2 token).2
      = .failure (createAuthError "Invalid verification token" "INVALID_TOKEN" 400)) := by
  have hrun : verifyEmail db now token =
      ({ db with
          users := db.users.map (fun (u : User) =>
            if u.id = tr.user_id then { u with email_verified := true } else u),
          email_verification_tokens :=
            db.email_verification_tokens.filter (fun t => t.token ≠ token) },
        .success tr.user_id) := by
    unfold verifyEmail
    rw [if_neg htr, hfind]
    dsimp only
    rw [hvalid]
    simp only [Bool.not_true, Bool.false_eq_true, if_false]
  rw [hrun]
  refine ⟨rfl, ?_, ?_, ?_⟩
  · intro u hu hid
    rcases List.mem_map.mp hu with ⟨a, _, ha⟩
    by_cases hcase : a.id = tr.user_id
    · rw [if_pos hcase] at ha
      rw [← ha]
    · rw [if_neg hcase] at ha
      exact absurd (ha ▸ hid) hcase
  · intro t2 ht2
    have := (List.mem_filter.mp ht2).2
    simpa using this
  · intro now2
    unfold verifyEmail
    rw [if_neg htr]
    have hnone : (db.email_verification_tokens.filter (fun t => t.token ≠ token)).find?
        (fun t => t.token == token) = none := by
      rw [List.find?_eq_none]
      intro x hx hpx
      have : x.token ≠ token := by
        have := (List.mem_filter.mp hx).2
        simpa using this
      exact this (eq_of_beq hpx)
    rw [hnone]

/-- Witness for `verifyEmail_consumes_token` on a one-user, one-token
database. -/
theorem verifyEmail_consumes_token_witness :
    (verifyEmail
      (verifyEmail
        ⟨[⟨"u1", "a@b.co", false, some "ph", none, none, none, none⟩], [],
         [⟨"vtok", "u1", "a@b.co", 1000⟩], []⟩ 0 "vtok").1
      0 "vtok").2
    = .failure (createAuthError "Invalid verification token" "INVALID_TOKEN" 400) :=
  (verifyEmail_consumes_token
    ⟨[⟨"u1", "a@b.co", false, some "ph", none, none, none, none⟩], [],
     [⟨"vtok", "u1", "a@b.co", 1000⟩], []⟩ 0 "vtok"
    ⟨"vtok", "u1", "a@b.co", 1000⟩
    (by decide) (by decide) (by decide)).2.2.2 0

/-! ## Theorems about `verifyResetToken` (C10) -/

/--
C10, counterexample.  `verifyResetToken` does not leave every database
state unmodified: on a database holding an expired reset token, the call
deletes that token (the stored state changes).
-/
theorem verifyResetToken_deletes_expired :
    (verifyResetToken c10Db 10 "tok-exp").1 ≠ c10Db ∧
    (verifyResetToken c10Db 10 "tok-exp").1.password_reset_tokens = [] ∧
    (verifyResetToken c10Db 10 "tok-exp").2 = { valid := false, userId := none } := by
  refine ⟨by decide, by decide, by decide⟩

/--
C10, amended.  `verifyResetToken` returns the token's validity plus the
owning user id and modifies no stored state — except in the one case
where the token exists but is expired: there it deletes the expired token
(and reports invalid).
-/
theorem verifyResetToken_frame (db : Db) (now : Nat) (token : String) :
    (trimChars token.data = [] →
      verifyResetToken db now token = (db, { valid := false, userId := none })) ∧
    (trimChars token.data ≠ [] →
      db.password_reset_tokens.find? (fun t => t.token == token) = none →
      verifyResetToken db now token = (db, { valid := false, userId := none })) ∧
    (∀ tr, trimChars token.data ≠ [] →
      db.password_reset_tokens.find? (fun t => t.token == token) = some tr →
      isValidPasswordResetToken tr now = true →
      verifyResetToken db now token = (db, { valid := true, userId := some tr.user_id })) ∧
    (∀ tr, trimChars token.data ≠ [] →
      db.password_reset_tokens.find? (fun t => t.token == token) = some tr →
      isValidPasswordResetToken tr now = false →
      verifyResetToken db now token =
        ({ db with password_reset_tokens :=
            db.password_reset_tokens.filter (fun t => t.token ≠ token) },
         { valid := false, userId := none })) := by
  refine ⟨?_, ?_, ?_, ?_⟩
  · intro h; unfold verifyResetToken; rw [if_pos h]
  · intro h hfind; unfold verifyResetToken; rw [if_neg h, hfind]
  · intro tr h hfind hvalid
    unfold verifyResetToken
    rw [if_neg h, hfind]
    dsimp only
    rw [hvalid]
    simp only [Bool.not_true, Bool.false_eq_true, if_false]
  · intro tr h hfind hvalid
    unfold verifyResetToken
    rw [if_neg h, hfind]
    dsimp only
    rw [hvalid]
    simp only [Bool.not_false, if_true]

/-- Witness for `verifyResetToken_frame`: the valid-token case leaves the
database unchanged. -/
theorem verifyResetToken_frame_witness :
    verifyResetToken ⟨[], [], [], [⟨"tok9", "u1", 1000⟩]⟩ 0 "tok9"
      = (⟨[], [], [], [⟨"tok9", "u1", 1000⟩]⟩, { valid := true, userId := some "u1" }) :=
  (verifyResetToken_frame ⟨[], [], [], [⟨"tok9", "u1", 1000⟩]⟩ 0 "tok9").2.2.1
    ⟨"tok9", "u1", 1000⟩ (by decide) (by decide) (by decide)

/-! ## Theorems about the OAuth upsert verified flag (C5) -/

/--
C5, counterexample.  On a provider-id match, `upsertOAuthUser` does not
OR the email-verified flag with the profile's claim: it overwrites it
with the claim whenever the claim is present (`??`, nullish coalescing).
Concretely, a user with `email_verified = true` is unverified by a
profile claiming `email_verified = false`.
-/
theorem upsertOAuthUser_unverifies :
    c5User.email_verified = true ∧
    (upsertOAuthUser c5Db .github c5Profile "unused-id").2.email_verified = false ∧
    (upsertOAuthUser c5Db .github c5Profile "unused-id").1.users
      = [oauthUpdatedUser c5User c5Profile] ∧
    (oauthUpdatedUser c5User c5Profile).email_verified = false := by
  refine ⟨rfl, by decide, by decide, by decide⟩

/--
C5, amended.  On a provider-id match, `upsertOAuthUser` updates the
mutable profile fields (email, name, avatar) and sets the email-verified
flag to the profile's claim when the claim is present, keeping the stored
value only when the claim is absent (nullish coalescing, not OR): a
present `false` claim changes `email_verified` from `true` to `false`.
-/
theorem upsertOAuthUser_provider_match (db : Db) (provider : Provider)
    (profile : OAuthUserProfile) (newId : String) (u : User)
    (hfind : db.users.find? (fun v => providerIdOf provider v == some profile.id)
      = some u) :
    (upsertOAuthUser db provider profile newId).2 = oauthUpdatedUser u profile ∧
    (upsertOAuthUser db provider profile newId).1.users =
      db.users.map (fun v => if v.id = u.id then oauthUpdatedUser u profile else v) := by
  unfold upsertOAuthUser oauthUpdatedUser
  rw [hfind]
  exact ⟨rfl, rfl⟩

/-- Witness for `upsertOAuthUser_provider_match` on the C5 database. -/
theorem upsertOAuthUser_provider_match_witness :
    (upsertOAuthUser c5Db .github c5Profile "unused-id").2 =
      oauthUpdatedUser c5User c5Profile :=
  (upsertOAuthUser_provider_match c5Db .github c5Profile "unused-id" c5User
    (by decide)).1

/-! ## Theorems about the OAuth state check (C6) -/

/--
C6.  When the stored CSRF state differs from the returned state, the
GitHub OAuth callback fails terminally with the state-mismatch error and
performs no collaborator call at all — in particular the authorization
code exchange is never invoked.
-/
theorem handleGitHubCallback_state_mismatch (configOk : Bool)
    (code storedState returnedState : String)
    (exchange : String → Except String String)
    (fetchUserProfile : String → Except String OAuthUserProfile)
    (h : storedState ≠ returnedState) :
    handleGitHubCallback configOk code storedState returnedState exchange fetchUserProfile
      = (.error "Invalid OAuth state parameter", []) ∧
    ∀ c, OAuthEffect.exchangeCode c ∉
      (handleGitHubCallback configOk code storedState returnedState exchange
        fetchUserProfile).2 := by
  unfold handleGitHubCallback
  rw [if_pos h]
  exact ⟨rfl, by simp⟩

/-- Witness for `handleGitHubCallback_state_mismatch` with a concrete
mismatched state pair. -/
theorem handleGitHubCallback_state_mismatch_witness :
    handleGitHubCallback true "code1" "stateA" "stateB"
      (fun _ => .ok "tok") (fun _ => .error "nope")
      = (.error "Invalid OAuth state parameter", []) :=
  (handleGitHubCallback_state_mismatch true "code1" "stateA" "stateB"
    (fun _ => .ok "tok") (fun _ => .error "nope") (by decide)).1

end LightAuth

